import Mathlib

/-!
Shallow embedding of `SPL_Combined_PlaywrightV2.py` (SteamPriceComparator).

Pure functions are translated directly; the Playwright page interactions are
embedded as functions over explicit world/page records that give the outcome
of every external step (navigation success, element counts, cell texts, wait
outcomes), and Python exceptions become `Except` values.  Python floats are
modelled as exact rationals; Python `re` whitespace and `str.strip` are
modelled with `Char.isWhitespace` (space, tab, CR, LF), which covers every
input appearing in the specification.
-/

namespace SPL

/-! ### TextPriceParser: `parse_price_text` (source lines 64-70)

`re.sub(r"[^\d,.\s]", "", text)` keeps digits, commas, periods and
whitespace; `.strip()` trims whitespace at both ends; `.replace(",", ".")`
maps commas to periods; `re.search` of the pattern digits, then optionally
a period followed by one or two digits, returns the leftmost (greedy) match. -/

/-- A character kept by the strip step: digit, comma, period or whitespace. -/
def keepChar (c : Char) : Bool :=
  c.isDigit || c = ',' || c = '.' || c.isWhitespace

/-- `re.sub(r"[^\d,.\s]", "", _)` as a character filter. -/
def stripOther (l : List Char) : List Char :=
  l.filter keepChar

/-- Python `str.strip()`: drop whitespace from both ends. -/
def pyStrip (l : List Char) : List Char :=
  ((l.dropWhile Char.isWhitespace).reverse.dropWhile Char.isWhitespace).reverse

/-- Python `.replace(",", ".")` on a character list. -/
def commaToDot (l : List Char) : List Char :=
  l.map (fun c => if c = ',' then '.' else c)

/-- The match of the pattern at a position whose head is a digit: a maximal
digit run, then, if a period followed by at least one digit comes next, the
period plus at most two further digits (the greedy fractional group). -/
def matchAt (l : List Char) : List Char :=
  let ds := l.takeWhile Char.isDigit
  match l.dropWhile Char.isDigit with
  | [] => ds
  | c :: r =>
      if c = '.' then
        let fs := (r.takeWhile Char.isDigit).take 2
        if fs.isEmpty then ds else ds ++ '.' :: fs
      else ds

/-- `re.search`: the leftmost match of digits plus an optional one-or-two
digit fractional part, or `none` when the string has no digit. -/
def firstMatch : List Char → Option (List Char)
  | [] => none
  | c :: cs => if c.isDigit then some (matchAt (c :: cs)) else firstMatch cs

/-- Value of a digit string read in base ten. -/
def digitsVal (l : List Char) : Nat :=
  l.foldl (fun a c => a * 10 + (c.toNat - 48)) 0

/-- `float(...)` applied to a matched substring `digits` or
`digits ++ period ++ fraction`, as an exact rational. -/
def matchToRat (m : List Char) : ℚ :=
  let intPart := m.takeWhile Char.isDigit
  match m.dropWhile Char.isDigit with
  | '.' :: fs => (digitsVal intPart : ℚ) + (digitsVal fs : ℚ) / (10 ^ fs.length)
  | _ => (digitsVal intPart : ℚ)

/-- `parse_price_text` (source lines 64-70).  The argument is optional
because callers pass `None` for a missing price element; Python treats
`None` and the empty string alike under `if not text`. -/
def parse_price_text (text : Option String) : Option ℚ :=
  match text with
  | none => none
  | some t =>
    if t.data.isEmpty then none
    else (firstMatch (commaToDot (pyStrip (stripOther t.data)))).map matchToRat

/-- The parser exactly as the specification words it: strip the foreign
characters, normalize comma to period, take the first match.  (The source
additionally trims whitespace at both ends before normalizing; the
refinement theorem shows this makes no difference.) -/
def parse_spec (text : Option String) : Option ℚ :=
  match text with
  | none => none
  | some t =>
    if t.data.isEmpty then none
    else (firstMatch (commaToDot (stripOther t.data))).map matchToRat

/-! ### FirstOfferExtractor: `extract_first_offer` (source lines 99-120)

The rendered product page is embedded as a record giving the outcome of
every external interaction the function performs: whether each invocation
of the offer-table waiter succeeds, and for each of the two cells whether
the element exists and, if so, what its `text_content()` returns.  A wait
failure is any raised exception, caught by the corresponding `except`. -/

/-- Outcomes a rendered offer page can present to `extract_first_offer`.
A cell is `none` when `query_selector` finds no element, and
`some txt` when the element exists with `text_content()` result `txt`
(itself optional, as in Playwright). -/
structure OfferPage where
  wait1 : Bool
  wait2 : Bool
  priceCell : Option (Option String)
  merchantCell : Option (Option String)
deriving DecidableEq

/-- `wait_for_offer_rows` (source lines 88-97): the four bounded waits are
collapsed into their overall outcome for one invocation; a failure of any
step raises, modelled by `Except.error`. -/
def wait_for_offer_rows (ok : Bool) : Except Unit Unit :=
  if ok then Except.ok () else Except.error ()

/-- Python `(x or "").strip()` applied to an optional `text_content()`. -/
def orEmptyStrip (t : Option String) : String :=
  ⟨pyStrip (t.getD "").data⟩

/-- The cell-reading tail of `extract_first_offer` (source lines 111-120),
reached once a wait has succeeded. -/
def read_first_offer (pg : OfferPage) : Option ℚ × Option String :=
  let price_text : Option String := pg.priceCell.map orEmptyStrip
  let price := parse_price_text price_text
  let merchant : Option String :=
    match pg.merchantCell with
    | some t => some (orEmptyStrip t)
    | none => some "N/A"
  (price, merchant)

/-- `extract_first_offer` (source lines 99-120): try the waiter; on failure
pause and try it once more; on a second failure return `(None, None)`. -/
def extract_first_offer (pg : OfferPage) : Option ℚ × Option String :=
  match wait_for_offer_rows pg.wait1 with
  | Except.ok _ => read_first_offer pg
  | Except.error _ =>
    match wait_for_offer_rows pg.wait2 with
    | Except.ok _ => read_first_offer pg
    | Except.error _ => (none, none)

/-! ### ReferencePriceSource: `get_steam_price` (source lines 45-59)

The structured endpoint response is embedded as a record; the whole
argument is `none` when the request or JSON decoding raises (the
`except` path). -/

/-- The fields of the appdetails response consulted by the code: the
`success` flag and, when present, the `price_overview.final` amount in
cents. -/
structure SteamResponse where
  success : Bool
  price_overview : Option ℕ
deriving DecidableEq

/-- `get_steam_price` (source lines 45-59). -/
def get_steam_price (resp : Option SteamResponse) : Option ℚ :=
  match resp with
  | none => none
  | some r =>
    if r.success then
      match r.price_overview with
      | some final => some ((final : ℚ) / 100)
      | none => some 0
    else none

/-! ### DynamicPriceExtractor: `get_goclecd_price` (source lines 122-168)

The browser world is embedded as a record giving the outcome of every
external step.  `page.goto` and `wait_for_load_state` are not wrapped in
any `try` in the source, so their failures raise out of the function body
(`Except.error`); the first-link `wait_for` failure is caught (only an
extra pause follows it), so it never affects the returned value.  The
`with sync_playwright()` block releases the launched browser when the body
exits, normally or exceptionally; explicit `browser.close()` calls inside
the body are counted, and the wrapper adds the context-manager release
when the body performed none. -/

/-- Outcomes the browser world can present to one `get_goclecd_price`
call. -/
structure GocWorld where
  navSearchOk : Bool
  linkWaitOk : Bool
  linkCount : ℕ
  href : Option String
  navProductOk : Bool
  offers : OfferPage
deriving DecidableEq

/-- The quote dictionary built at source lines 160-165. -/
structure GocResult where
  price : Option ℚ
  currency : String
  merchant : String
  url : String
deriving DecidableEq

/-- Python `merchant if merchant else "N/A"`: `None` and the empty string
are both falsy. -/
def merchantOrNA (m : Option String) : String :=
  match m with
  | none => "N/A"
  | some s => if s.isEmpty then "N/A" else s

/-- The body of the `with sync_playwright()` block of `get_goclecd_price`
(source lines 127-168).  Returns the outcome (a raised exception, or the
returned optional quote) paired with the number of `browser.close()`
calls executed.  `linkWaitOk` is consulted only for the caught `wait_for`
(source lines 136-140), which changes timing but never the value. -/
def goclecd_body (w : GocWorld) : Except Unit (Option GocResult) × ℕ :=
  if w.navSearchOk then
    if w.linkCount = 0 then (Except.ok none, 1)
    else
      match w.href with
      | none => (Except.ok none, 1)
      | some u =>
        if u.isEmpty then (Except.ok none, 1)
        else
          if w.navProductOk then
            let pm := extract_first_offer w.offers
            (Except.ok (some ⟨pm.1, "EUR", merchantOrNA pm.2, u⟩), 1)
          else (Except.error (), 0)
  else (Except.error (), 0)

/-- `get_goclecd_price` (source lines 122-168): the body together with the
`with sync_playwright()` exit, which releases the session whenever the
body did not close it itself.  The second component counts how many times
the session is released in total. -/
def get_goclecd_price (w : GocWorld) : Except Unit (Option GocResult) × ℕ :=
  let r := goclecd_body w
  (r.1, if r.2 = 0 then 1 else r.2)

/-! ### ComparisonEngine: `calculate_savings` (source lines 173-178) -/

/-- `calculate_savings` (source lines 173-178). -/
def calculate_savings (steam_price goclecd_price : Option ℚ) :
    Option ℚ × Option ℚ :=
  match steam_price, goclecd_price with
  | some s, some g =>
    if s = 0 then (none, none)
    else (some (s - g), some ((s - g) / s * 100))
  | _, _ => (none, none)

/-! ### The comparison loop: `compare_prices_to_excel` (source lines 180-213)

Only the loop that builds the `results` list is modelled; the subsequent
`DataFrame` sort and file write preserve the row count and are outside
every claim.  Each input game carries the worlds its two lookups will
encounter.  The loop body contains no `try`, so an exception raised by
`get_goclecd_price` propagates out of the whole function. -/

/-- Round to the nearest integer, ties to even, as Python `round` does. -/
def roundHalfEven (q : ℚ) : ℤ :=
  let f := ⌊q⌋
  let r := q - (f : ℚ)
  if r < 1/2 then f
  else if 1/2 < r then f + 1
  else if f % 2 = 0 then f else f + 1

/-- Python `round(x, 2)` on an exact rational: round half to even at two
decimal places. -/
def round2 (q : ℚ) : ℚ := (roundHalfEven (q * 100) : ℚ) / 100

/-- One input game together with the external world its lookups meet. -/
structure GameTask where
  app_id : ℕ
  name : String
  steamResp : Option SteamResponse
  goc : GocWorld
deriving DecidableEq

/-- The dictionary appended to `results` (source lines 192-201). -/
structure Row where
  jeu : String
  steam_id : ℕ
  prix_steam : Option ℚ
  prix_goclecd : Option ℚ
  marchand : String
  economie_eur : Option ℚ
  economie_pct : Option ℚ
  lien : String
deriving DecidableEq

/-- The loop body of `compare_prices_to_excel` for one game, given the
value returned by `get_goclecd_price` (source lines 184-201). -/
def makeRow (t : GameTask) (gdata : Option GocResult) : Row :=
  let steam_price := get_steam_price t.steamResp
  let goclecd_price := gdata.bind (fun d => d.price)
  let merchant := match gdata with | some d => d.merchant | none => "N/A"
  let goclecd_url := match gdata with | some d => d.url | none => ""
  let s := calculate_savings steam_price goclecd_price
  ⟨t.name, t.app_id, steam_price, goclecd_price, merchant,
    s.1.map round2, s.2.map round2, goclecd_url⟩

/-- The `results`-building loop of `compare_prices_to_excel` (source lines
181-208).  `get_steam_price` is total (its body is wrapped in a `try`);
an exception from `get_goclecd_price` aborts the whole loop because the
body has no handler. -/
def compare_prices_to_excel : List GameTask → Except Unit (List Row)
  | [] => Except.ok []
  | t :: ts =>
    match (get_goclecd_price t.goc).1 with
    | Except.error e => Except.error e
    | Except.ok gdata =>
      match compare_prices_to_excel ts with
      | Except.error e => Except.error e
      | Except.ok rows => Except.ok (makeRow t gdata :: rows)


/-! Supporting lemmas: trimming whitespace at the ends of the cleaned string
cannot change the leftmost regex match, because whitespace is neither a
digit nor a period. -/

lemma whitespace_not_digit {c : Char} (h : c.isWhitespace = true) :
    c.isDigit = false := by
  simp only [Char.isWhitespace, Bool.or_eq_true, decide_eq_true_eq] at h
  rcases h with ((rfl | rfl) | rfl) | rfl <;> decide

lemma whitespace_ne_dot {c : Char} (h : c.isWhitespace = true) : c ≠ '.' := by
  simp only [Char.isWhitespace, Bool.or_eq_true, decide_eq_true_eq] at h
  rcases h with ((rfl | rfl) | rfl) | rfl <;> decide

lemma takeWhile_append_of_empty (p : Char → Bool) (l ws : List Char)
    (h : ws.takeWhile p = []) : (l ++ ws).takeWhile p = l.takeWhile p := by
  induction l with
  | nil => simpa using h
  | cons c cs ih => by_cases hc : p c <;> simp [List.takeWhile_cons, hc, ih]

lemma dropWhile_append_of_id (p : Char → Bool) (l ws : List Char)
    (h : ws.dropWhile p = ws) : (l ++ ws).dropWhile p = l.dropWhile p ++ ws := by
  induction l with
  | nil => simpa using h
  | cons c cs ih => by_cases hc : p c <;> simp [List.dropWhile_cons, hc, ih]

lemma ws_takeWhile_digit (ws : List Char)
    (hws : ∀ c ∈ ws, c.isWhitespace = true) : ws.takeWhile Char.isDigit = [] := by
  cases ws with
  | nil => rfl
  | cons w ws' =>
      have : w.isDigit = false := whitespace_not_digit (hws w (by simp))
      simp [List.takeWhile_cons, this]

lemma ws_dropWhile_digit (ws : List Char)
    (hws : ∀ c ∈ ws, c.isWhitespace = true) : ws.dropWhile Char.isDigit = ws := by
  cases ws with
  | nil => rfl
  | cons w ws' =>
      have : w.isDigit = false := whitespace_not_digit (hws w (by simp))
      simp [List.dropWhile_cons, this]

lemma matchAt_append_ws (l ws : List Char)
    (hws : ∀ c ∈ ws, c.isWhitespace = true) : matchAt (l ++ ws) = matchAt l := by
  simp only [matchAt]
  rw [takeWhile_append_of_empty _ _ _ (ws_takeWhile_digit ws hws),
    dropWhile_append_of_id _ _ _ (ws_dropWhile_digit ws hws)]
  cases hdl : l.dropWhile Char.isDigit with
  | nil =>
      simp only [List.nil_append]
      cases hw : ws with
      | nil => rfl
      | cons w ws' =>
          have hne : w ≠ '.' := whitespace_ne_dot (hws w (by simp [hw]))
          simp [hne]
  | cons c r =>
      simp only [List.cons_append]
      by_cases hc : c = '.'
      · subst hc
        simp only [if_true]
        rw [takeWhile_append_of_empty _ _ _ (ws_takeWhile_digit ws hws)]
      · simp [hc]

lemma firstMatch_of_no_digit (l : List Char)
    (h : ∀ c ∈ l, c.isDigit = false) : firstMatch l = none := by
  induction l with
  | nil => rfl
  | cons c cs ih =>
      simp only [firstMatch, h c (by simp)]
      exact ih fun d hd => h d (by simp [hd])

lemma firstMatch_append_ws (l ws : List Char)
    (hws : ∀ c ∈ ws, c.isWhitespace = true) :
    firstMatch (l ++ ws) = firstMatch l := by
  induction l with
  | nil =>
      simp only [List.nil_append, firstMatch]
      exact firstMatch_of_no_digit ws fun c hc => whitespace_not_digit (hws c hc)
  | cons c cs ih =>
      by_cases hc : c.isDigit
      · simp only [List.cons_append, firstMatch, hc, if_true]
        exact congrArg some (matchAt_append_ws (c :: cs) ws hws)
      · simp only [List.cons_append, firstMatch, hc, if_false]
        exact ih

lemma firstMatch_dropWhile_ws (l : List Char) :
    firstMatch (l.dropWhile Char.isWhitespace) = firstMatch l := by
  induction l with
  | nil => rfl
  | cons c cs ih =>
      by_cases hc : c.isWhitespace
      · have hd : c.isDigit = false := whitespace_not_digit hc
        simp [List.dropWhile_cons, hc, firstMatch, hd, ih]
      · simp [List.dropWhile_cons, hc]

lemma firstMatch_pyStrip (l : List Char) :
    firstMatch (pyStrip l) = firstMatch l := by
  rw [pyStrip]
  set m := l.dropWhile Char.isWhitespace with hm
  have h2 : firstMatch m = firstMatch l := firstMatch_dropWhile_ws l
  rw [← h2]
  have hdecomp : m = (m.reverse.dropWhile Char.isWhitespace).reverse
      ++ (m.reverse.takeWhile Char.isWhitespace).reverse := by
    have := List.takeWhile_append_dropWhile (p := Char.isWhitespace)
      (l := m.reverse)
    calc m = m.reverse.reverse := by rw [List.reverse_reverse]
    _ = (m.reverse.takeWhile Char.isWhitespace
          ++ m.reverse.dropWhile Char.isWhitespace).reverse := by rw [this]
    _ = _ := by rw [List.reverse_append]
  conv_rhs => rw [hdecomp]
  rw [firstMatch_append_ws]
  intro c hc
  rw [List.mem_reverse] at hc
  exact List.mem_takeWhile_imp hc

lemma goclecd_body_closes_le_one (w : GocWorld) :
    (goclecd_body w).2 = 0 ∨ (goclecd_body w).2 = 1 := by
  unfold goclecd_body
  repeat' split
  all_goals simp

lemma matchToRat_nonneg (m : List Char) : 0 ≤ matchToRat m := by
  unfold matchToRat
  split
  · positivity
  · positivity

lemma parse_price_text_of_nonempty (s : String) (h : s.data.isEmpty = false) :
    parse_price_text (some s)
      = (firstMatch (commaToDot (pyStrip (stripOther s.data)))).map
          matchToRat := by
  simp [parse_price_text, h]

lemma commaToDot_pyStrip (l : List Char) :
    commaToDot (pyStrip l) = pyStrip (commaToDot l) := by
  have hp : (Char.isWhitespace ∘ fun c => if c = ',' then '.' else c)
      = Char.isWhitespace := by
    funext c
    by_cases h : c = ','
    · subst h; decide
    · simp [h]
  have key : ∀ m : List Char,
      (m.dropWhile Char.isWhitespace).map (fun c => if c = ',' then '.' else c)
        = (m.map (fun c => if c = ',' then '.' else c)).dropWhile
            Char.isWhitespace := by
    intro m
    rw [List.dropWhile_map, hp]
  simp only [commaToDot, pyStrip]
  rw [List.map_reverse, key, List.map_reverse, key]

/-! ### Claim theorems -/

/-- Claim C1: `calculate_savings` returns a fully-absent pair whenever the
reference price is absent, the quote is absent, or the reference is zero;
otherwise, for every reference > 0 and quote >= 0, it returns the absolute
saving `reference - quote` and the percentage
`100 * (reference - quote) / reference` exactly. -/
theorem calculate_savings_spec :
    (∀ g, calculate_savings none g = (none, none)) ∧
    (∀ s, calculate_savings s none = (none, none)) ∧
    (∀ g, calculate_savings (some 0) g = (none, none)) ∧
    (∀ s g : ℚ, 0 < s → 0 ≤ g →
      calculate_savings (some s) (some g)
        = (some (s - g), some (100 * (s - g) / s))) := by
  refine ⟨fun g => rfl, fun s => ?_, fun g => ?_, fun s g hs hg => ?_⟩
  · cases s <;> rfl
  · cases g <;> simp [calculate_savings]
  · have hne : s ≠ 0 := ne_of_gt hs
    have hcomm : (s - g) / s * 100 = 100 * (s - g) / s := by ring
    simp only [calculate_savings, if_neg hne, hcomm]

/-- Witness for C1 at reference 2 and quote 1. -/
theorem calculate_savings_spec_witness :
    calculate_savings (some 2) (some 1)
      = (some (2 - 1), some (100 * (2 - 1) / 2)) :=
  calculate_savings_spec.2.2.2 2 1 (by norm_num) (by norm_num)

/-- Counterexample to C2: on a successful response with the price-overview
field missing, `get_steam_price` returns a present zero, not an absent
amount. -/
theorem get_steam_price_missing_overview_cex :
    get_steam_price (some ⟨true, none⟩) = some 0 ∧
      get_steam_price (some ⟨true, none⟩) ≠ none :=
  ⟨rfl, by simp [get_steam_price]⟩

/-- Amended C2: when the endpoint reports success but the price-overview
field is missing, `get_steam_price` returns the present amount zero; it
returns an absent amount only for an unsuccessful response or a failed
request. -/
theorem get_steam_price_amended :
    (∀ r : SteamResponse, r.success = true → r.price_overview = none →
      get_steam_price (some r) = some 0) ∧
    (∀ r : SteamResponse, r.success = false →
      get_steam_price (some r) = none) ∧
    get_steam_price none = none := by
  refine ⟨fun r hs ho => ?_, fun r hs => ?_, rfl⟩
  · simp [get_steam_price, hs, ho]
  · simp [get_steam_price, hs]

/-- Witness for amended C2 at a successful overview-free response. -/
theorem get_steam_price_amended_witness :
    get_steam_price (some ⟨true, none⟩) = some 0 :=
  get_steam_price_amended.1 ⟨true, none⟩ rfl rfl

/-- Counterexample to C3: the comparison loop has no per-game handler, so
an exception raised inside `get_goclecd_price` (here a failed navigation
to the search page) aborts the whole run instead of yielding a row. -/
theorem compare_prices_abort_cex :
    compare_prices_to_excel
        [⟨1, "g", none, ⟨false, true, 0, none, true, ⟨true, true, none, none⟩⟩⟩]
      = Except.error () := rfl

/-- Amended C3: when every per-game `get_goclecd_price` call returns
normally (failures that its own handlers catch, zero matches, or a
missing link all return an absent quote rather than raising), the loop
emits exactly one row per input game; an uncaught per-game exception,
however, propagates and aborts the run. -/
theorem compare_prices_row_per_game (ts : List GameTask)
    (h : ∀ t ∈ ts, (get_goclecd_price t.goc).1 ≠ Except.error ()) :
    ∃ rows, compare_prices_to_excel ts = Except.ok rows ∧
      rows.length = ts.length := by
  induction ts with
  | nil => exact ⟨[], rfl, rfl⟩
  | cons t ts ih =>
    obtain ⟨rows, hr, hl⟩ := ih fun u hu => h u (by simp [hu])
    cases hg : (get_goclecd_price t.goc).1 with
    | error e => cases e; exact absurd hg (h t (by simp))
    | ok gdata =>
      exact ⟨makeRow t gdata :: rows,
        by simp [compare_prices_to_excel, hg, hr], by simp [hl]⟩

/-- Witness for amended C3 on a one-game list whose lookup finds no
product link. -/
theorem compare_prices_row_per_game_witness :
    ∃ rows, compare_prices_to_excel
        [⟨1, "g", none, ⟨true, true, 0, none, true, ⟨true, true, none, none⟩⟩⟩]
      = Except.ok rows ∧ rows.length = 1 :=
  compare_prices_row_per_game
    [⟨1, "g", none, ⟨true, true, 0, none, true, ⟨true, true, none, none⟩⟩⟩]
    (by
      intro t ht hc
      rw [List.mem_singleton] at ht
      subst ht
      have hok : (get_goclecd_price
          ⟨true, true, 0, none, true, ⟨true, true, none, none⟩⟩).1
          = Except.ok none := rfl
      rw [hok] at hc
      exact Except.noConfusion hc)

/-- Claim C4: `parse_price_text` returns absent for null or empty input
and otherwise behaves exactly as the specification words it (strip the
foreign characters, normalize comma to period, first match of an integer
part with an optional one-or-two digit fraction); and the three pinned
examples hold. -/
theorem parse_price_text_spec :
    (∀ t, parse_price_text t = parse_spec t) ∧
    parse_price_text none = none ∧
    parse_price_text (some "") = none ∧
    parse_price_text (some "abc") = none ∧
    parse_price_text (some "12,50 €") = some (25 / 2) := by
  refine ⟨fun t => ?_, rfl, by decide, by decide, ?_⟩
  · cases t with
    | none => rfl
    | some s =>
      simp only [parse_price_text, parse_spec]
      by_cases h : s.data.isEmpty
      · simp [h]
      · simp only [h, if_false]
        rw [commaToDot_pyStrip, firstMatch_pyStrip]
  · have he : "12,50 €".data.isEmpty = false := by decide
    have h1 : firstMatch (commaToDot (pyStrip (stripOther "12,50 €".data)))
        = some ['1', '2', '.', '5', '0'] := by decide
    have h2 : List.dropWhile Char.isDigit ['1', '2', '.', '5', '0']
        = '.' :: ['5', '0'] := by decide
    have h3 : List.takeWhile Char.isDigit ['1', '2', '.', '5', '0']
        = ['1', '2'] := by decide
    have h4 : digitsVal ['1', '2'] = 12 := by decide
    have h5 : digitsVal ['5', '0'] = 50 := by decide
    have h6 : matchToRat ['1', '2', '.', '5', '0'] = 25 / 2 := by
      simp only [matchToRat, h2, h3, h4, h5]
      norm_num
    rw [parse_price_text_of_nonempty _ he, h1, Option.map_some', h6]

/-- Claim C9: on the mixed-separator input the first match stops after two
fractional digits, so the value is truncated at the first separator. -/
theorem parse_price_text_thousands :
    parse_price_text (some "1.234,50") = some (123 / 100) := by
  have he : "1.234,50".data.isEmpty = false := by decide
  have h1 : firstMatch (commaToDot (pyStrip (stripOther "1.234,50".data)))
      = some ['1', '.', '2', '3'] := by decide
  have h2 : List.dropWhile Char.isDigit ['1', '.', '2', '3']
      = '.' :: ['2', '3'] := by decide
  have h3 : List.takeWhile Char.isDigit ['1', '.', '2', '3'] = ['1'] := by
    decide
  have h4 : digitsVal ['1'] = 1 := by decide
  have h5 : digitsVal ['2', '3'] = 23 := by decide
  have h6 : matchToRat ['1', '.', '2', '3'] = 123 / 100 := by
    simp only [matchToRat, h2, h3, h4, h5]
    norm_num
  rw [parse_price_text_of_nonempty _ he, h1, Option.map_some', h6]

/-- Claim C10: whenever `parse_price_text` returns a number, that number
is nonnegative. -/
theorem parse_price_text_nonneg (t : Option String) (q : ℚ)
    (h : parse_price_text t = some q) : 0 ≤ q := by
  cases t with
  | none => exact absurd h (by simp [parse_price_text])
  | some s =>
    cases he : s.data.isEmpty with
    | true => exact absurd h (by simp [parse_price_text, he])
    | false =>
      rw [parse_price_text_of_nonempty s he, Option.map_eq_some'] at h
      obtain ⟨m, _, hm⟩ := h
      exact hm ▸ matchToRat_nonneg m

/-- Witness for C10 at the input string 5. -/
theorem parse_price_text_nonneg_witness : 0 ≤ (5 : ℚ) :=
  parse_price_text_nonneg (some "5") 5 (by
    have h1 : firstMatch (commaToDot (pyStrip (stripOther "5".data)))
        = some ['5'] := by decide
    have h2 : List.dropWhile Char.isDigit ['5'] = [] := by decide
    have h3 : List.takeWhile Char.isDigit ['5'] = ['5'] := by decide
    have h4 : digitsVal ['5'] = 5 := by decide
    have he : "5".data.isEmpty = false := by decide
    have h6 : matchToRat ['5'] = 5 := by
      simp only [matchToRat, h2, h3, h4]
      norm_num
    rw [parse_price_text_of_nonempty _ he, h1, Option.map_some', h6])

/-- Claim C5: `extract_first_offer` consults the offer-table waiter; when
the first invocation succeeds the second is never consulted; after a first
failure it retries exactly once; after a second failure it returns the
fully-absent pair (and, being a total function, never raises). -/
theorem extract_first_offer_retry (pg : OfferPage) :
    (pg.wait1 = true → ∀ b, extract_first_offer { pg with wait2 := b }
        = read_first_offer pg) ∧
    (pg.wait1 = false → pg.wait2 = true →
      extract_first_offer pg = read_first_offer pg) ∧
    (pg.wait1 = false → pg.wait2 = false →
      extract_first_offer pg = (none, none)) := by
  refine ⟨fun h1 b => ?_, fun h1 h2 => ?_, fun h1 h2 => ?_⟩
  · simp [extract_first_offer, wait_for_offer_rows, h1, read_first_offer]
  · simp [extract_first_offer, wait_for_offer_rows, h1, h2]
  · simp [extract_first_offer, wait_for_offer_rows, h1, h2]

/-- Witness for C5 on a page whose waiter fails twice. -/
theorem extract_first_offer_retry_witness :
    extract_first_offer ⟨false, false, some (some "x"), none⟩
      = (none, none) :=
  (extract_first_offer_retry ⟨false, false, some (some "x"), none⟩).2.2 rfl rfl

/-- Counterexample to C6: with the merchant element absent, the extracted
merchant is the sentinel string N/A, not the string named by the claim. -/
theorem extract_first_offer_merchant_cex :
    extract_first_offer ⟨true, true, none, none⟩ = (none, some "N/A") ∧
      (some "N/A" : Option String) ≠ some "unknown" :=
  ⟨rfl, by decide⟩

/-- Amended C6: the price cell and merchant cell are read independently
(changing one cell never changes the other component of the result), and
an absent merchant element defaults to the sentinel string N/A. -/
theorem extract_first_offer_independent (pg : OfferPage)
    (hw : pg.wait1 = true ∨ pg.wait2 = true) :
    (∀ mc, (extract_first_offer { pg with merchantCell := mc }).1
        = (extract_first_offer pg).1) ∧
    (∀ pc, (extract_first_offer { pg with priceCell := pc }).2
        = (extract_first_offer pg).2) ∧
    (pg.merchantCell = none →
      (extract_first_offer pg).2 = some "N/A") := by
  by_cases h1 : pg.wait1 = true
  · refine ⟨fun mc => ?_, fun pc => ?_, fun hm => ?_⟩
    · simp [extract_first_offer, wait_for_offer_rows, h1, read_first_offer]
    · simp [extract_first_offer, wait_for_offer_rows, h1, read_first_offer]
    · simp [extract_first_offer, wait_for_offer_rows, h1, read_first_offer,
        hm]
  · have h1f : pg.wait1 = false := by
      cases hb : pg.wait1
      · rfl
      · exact absurd hb h1
    have h2 : pg.wait2 = true := by
      rcases hw with h | h
      · exact absurd h h1
      · exact h
    refine ⟨fun mc => ?_, fun pc => ?_, fun hm => ?_⟩
    · simp [extract_first_offer, wait_for_offer_rows, h1f, h2,
        read_first_offer]
    · simp [extract_first_offer, wait_for_offer_rows, h1f, h2,
        read_first_offer]
    · simp [extract_first_offer, wait_for_offer_rows, h1f, h2,
        read_first_offer, hm]

/-- Witness for amended C6 on a page with no merchant element. -/
theorem extract_first_offer_independent_witness :
    (extract_first_offer ⟨true, false, some (some "x"), none⟩).2
      = some "N/A" :=
  (extract_first_offer_independent ⟨true, false, some (some "x"), none⟩
    (Or.inl rfl)).2.2 rfl

/-- Claim C7: after a successful search navigation, zero matching product
links or a missing href make `get_goclecd_price` return an absent quote
without raising, with the session explicitly closed once before the
return. -/
theorem goclecd_notfound (w : GocWorld) (hn : w.navSearchOk = true)
    (h : w.linkCount = 0 ∨ w.href = none) :
    goclecd_body w = (Except.ok none, 1) ∧
      get_goclecd_price w = (Except.ok none, 1) := by
  have hb : goclecd_body w = (Except.ok none, 1) := by
    rcases h with h | h
    · simp [goclecd_body, hn, h]
    · by_cases h0 : w.linkCount = 0
      · simp [goclecd_body, hn, h0]
      · simp [goclecd_body, hn, h0, h]
  exact ⟨hb, by simp [get_goclecd_price, hb]⟩

/-- Witness for C7 on a world whose search page has no result link. -/
theorem goclecd_notfound_witness :
    get_goclecd_price ⟨true, true, 0, none, true, ⟨true, true, none, none⟩⟩
      = (Except.ok none, 1) :=
  (goclecd_notfound ⟨true, true, 0, none, true, ⟨true, true, none, none⟩⟩
    rfl (Or.inl rfl)).2

/-- Claim C8: on every exit path (success, not-found, or an exception
raised by a navigation), the browser session of one `get_goclecd_price`
call is released exactly once, counting both the explicit closes and the
release performed when the `with sync_playwright()` block exits. -/
theorem goclecd_releases_once (w : GocWorld) :
    (get_goclecd_price w).2 = 1 := by
  rcases goclecd_body_closes_le_one w with h | h <;>
    simp [get_goclecd_price, h]

end SPL
